import Mathlib

/-!
Shallow embedding of the asynchronous cart-fill job subsystem of the Meel
repository (src/server/src/server.ts and src/server/src/index.ts):

* the in-memory fill-cart progress store with its 1-hour TTL
  (`fillCartProgressStore`, `updateFillCartProgress`, `getFillCartProgress`),
* the cart-fill orchestrator `fillShoppingCart`, modelled by the exact
  sequence of `onProgress` updates it publishes, with the outcomes of the
  external browser-automation and translation collaborators supplied as an
  oracle (`AutomationEnv`),
* the `fill-cart` and `check_fill_cart_progress` tool handlers.

Machine integers do not occur on the modelled paths; timestamps
(`Date.now()`) are modelled as `Nat` milliseconds, and the JavaScript
comparison `now - updatedAt > TTL` (always on `now ≥ updatedAt` in the
program) coincides with truncated `Nat` subtraction.
-/

/-- A product request, `{ name: string; quantity: string }` in server.ts. -/
structure Product where
  name : String
  quantity : String
deriving Repr, DecidableEq

/-- The job status union `"started" | "running" | "completed" | "failed"`. -/
inductive JobStatus where
  | started
  | running
  | completed
  | failed
deriving Repr, DecidableEq

/-- The stored job state, `FillCartProgressState` in server.ts. -/
structure FillCartProgressState where
  status : JobStatus
  added_products : List Product
  failed_products : List Product
  cart_url : Option String
  error : Option String
  current_product : Option String
  updatedAt : Nat
deriving Repr, DecidableEq

/-- A partial update, `Partial<Omit<FillCartProgressState, "updatedAt">>`:
each field is present (`some`) or absent (`none`) from the object literal
passed to `updateFillCartProgress`. -/
structure ProgressUpdate where
  status : Option JobStatus := none
  added_products : Option (List Product) := none
  failed_products : Option (List Product) := none
  cart_url : Option (Option String) := none
  error : Option (Option String) := none
  current_product : Option (Option String) := none
deriving Repr, DecidableEq

/-- `FILL_CART_PROGRESS_TTL_MS = 60 * 60 * 1000` in server.ts. -/
def FILL_CART_PROGRESS_TTL_MS : Nat := 60 * 60 * 1000

/-- The in-memory `Map<string, FillCartProgressState>` keyed by job id,
modelled extensionally as a partial function from keys to states. -/
def Store := String → Option FillCartProgressState

/-- `fillCartProgressStore.get(k)`. -/
def storeGet (s : Store) (k : String) : Option FillCartProgressState := s k

/-- `fillCartProgressStore.set(k, v)` (insert or replace). -/
def storeSet (s : Store) (k : String) (v : FillCartProgressState) : Store :=
  fun q => if q = k then some v else s q

/-- `fillCartProgressStore.delete(k)`. -/
def storeDelete (s : Store) (k : String) : Store :=
  fun q => if q = k then none else s q

/-- The empty map (initial state of `fillCartProgressStore`). -/
def emptyStore : Store := fun _ => none

/-- The spread `{ ...existing, ...update, updatedAt }` of server.ts: every
field present in the update replaces the stored one, absent fields are kept,
and `updatedAt` is always refreshed. -/
def applyUpdate (st : FillCartProgressState) (u : ProgressUpdate) (now : Nat) :
    FillCartProgressState where
  status := u.status.getD st.status
  added_products := u.added_products.getD st.added_products
  failed_products := u.failed_products.getD st.failed_products
  cart_url := u.cart_url.getD st.cart_url
  error := u.error.getD st.error
  current_product := u.current_product.getD st.current_product
  updatedAt := now

/-- `updateFillCartProgress(jobId, update)` of server.ts: a silent no-op when
the key is absent, otherwise a whole-field merge that refreshes `updatedAt`. -/
def updateFillCartProgress (s : Store) (jobId : String) (u : ProgressUpdate)
    (now : Nat) : Store :=
  match storeGet s jobId with
  | none => s
  | some existing => storeSet s jobId (applyUpdate existing u now)

/-- `getFillCartProgress(jobId)` of server.ts: returns the entry unless it is
absent or strictly older than the TTL; lazy expiry evicts the entry as a side
effect of the read, so the resulting store is returned alongside. -/
def getFillCartProgress (s : Store) (jobId : String) (now : Nat) :
    Option FillCartProgressState × Store :=
  match storeGet s jobId with
  | none => (none, s)
  | some entry =>
    if now - entry.updatedAt > FILL_CART_PROGRESS_TTL_MS then
      (none, storeDelete s jobId)
    else
      (some entry, s)

/-- Outcomes of the external collaborators for one orchestrator run: the
session-creation call, the preliminary interstitial task, the per-product
automation tasks (indexed in input order; `true` means the task completed,
`false` means it raised), and the url captured by the final
navigate-to-cart task (`none` when that task raised or recorded no url). -/
structure AutomationEnv where
  sessionResult : Except String Unit
  setupResult : Except String Unit
  productTaskOk : Nat → Bool
  cartNavUrl : Option String

/-- The `onProgress({ status: "running", current_product: product.name })`
call at the top of each loop iteration in `fillShoppingCart`. -/
def runningUpdate (name : String) : ProgressUpdate :=
  { status := some JobStatus.running, current_product := some (some name) }

/-- The per-item `onProgress` call after a product task settles, carrying the
full accumulated arrays and the next product's name (or null). -/
def itemUpdate (added failed : List Product) (next : Option String) :
    ProgressUpdate :=
  { added_products := some added, failed_products := some failed,
    current_product := some next }

/-- The terminal `onProgress({ status: "completed", ... })` call of
`fillShoppingCart`. -/
def completedUpdate (added failed : List Product) (cartUrl : Option String) :
    ProgressUpdate :=
  { status := some JobStatus.completed, added_products := some added,
    failed_products := some failed, cart_url := some cartUrl,
    current_product := some none }

/-- The `onProgress({ status: "failed", error, current_product: null })` call
in the outer catch of `fillShoppingCart`. -/
def failedUpdate (msg : String) : ProgressUpdate :=
  { status := some JobStatus.failed, error := some (some msg),
    current_product := some none }

/-- The per-product loop of `fillShoppingCart`: for each product it publishes
a `runningUpdate`, runs the automation task (outcome from `taskOk`, with the
inner try/catch swallowing per-item errors), appends the product to the
matching accumulator and publishes an `itemUpdate` with the full arrays and
the next product's name. Returns the published updates and the final
accumulators. -/
def loopTrace (taskOk : Nat → Bool) :
    List Product → List Product → List Product →
    List ProgressUpdate × List Product × List Product
  | [], added, failed => ([], added, failed)
  | p :: rest, added, failed =>
    let next := Option.map Product.name rest.head?
    if taskOk 0 then
      let res := loopTrace (fun n => taskOk (n + 1)) rest (added ++ [p]) failed
      (runningUpdate p.name :: itemUpdate (added ++ [p]) failed next :: res.1,
        res.2)
    else
      let res := loopTrace (fun n => taskOk (n + 1)) rest added (failed ++ [p])
      (runningUpdate p.name :: itemUpdate added (failed ++ [p]) next :: res.1,
        res.2)

/-- The sequence of `onProgress` updates published by one run of
`fillShoppingCart(products, { onProgress })`: if session creation raises, or
the preliminary interstitial task raises (it sits inside the outer `try` with
no inner catch), the single `failedUpdate` from the outer catch is published;
otherwise the per-product loop runs and the terminal `completedUpdate`
carries the accumulated arrays and the captured cart url. -/
def fillShoppingCartTrace (env : AutomationEnv) (products : List Product) :
    List ProgressUpdate :=
  match env.sessionResult with
  | Except.error e => [failedUpdate e]
  | Except.ok _ =>
    match env.setupResult with
    | Except.error e => [failedUpdate e]
    | Except.ok _ =>
      let res := loopTrace env.productTaskOk products [] []
      res.1 ++ [completedUpdate res.2.1 res.2.2 env.cartNavUrl]

/-- The job record inserted by the `fill-cart` handler before it returns. -/
def initialJobState (now : Nat) : FillCartProgressState where
  status := JobStatus.started
  added_products := []
  failed_products := []
  cart_url := none
  error := none
  current_product := none
  updatedAt := now

/-- The `fill-cart` tool handler: inserts the `started` record under the
fresh `jobId` into the store and returns `{ jobId, status: "started" }`
immediately; the orchestrator is launched detached (its updates are applied
to the store afterwards, see `runUpdates`). The products list is not
inspected here beyond being forwarded. -/
def fillCartHandler (s : Store) (products : List Product) (jobId : String)
    (now : Nat) : Store × String × JobStatus :=
  (storeSet s jobId (initialJobState now), jobId, JobStatus.started)

/-- The zod `inputSchema` of the `fill-cart` tool: `products` must be present
and be an array of `{ name: string, quantity: string }`; the schema imposes
no minimum length (plain `z.array` with no `.min`). `none` models a missing
`products` field. -/
def validateFillCartInput (raw : Option (List Product)) :
    Except String (List Product) :=
  match raw with
  | none => Except.error "invalid input: products missing"
  | some ps => Except.ok ps

/-- The snapshot payload built by the `check_fill_cart_progress` handler. -/
structure ProgressSnapshot where
  status : String
  added_products : List Product
  failed_products : List Product
  cart_url : Option String
  error : Option String
  current_product : Option String
deriving Repr, DecidableEq

/-- Rendering of a stored status into the payload's status string. -/
def statusString : JobStatus → String
  | JobStatus.started => "started"
  | JobStatus.running => "running"
  | JobStatus.completed => "completed"
  | JobStatus.failed => "failed"

/-- The payload returned when the job is absent or expired: note that its
`error` field is the string "Job not found or expired", not null. -/
def notFoundPayload : ProgressSnapshot where
  status := "not_found"
  added_products := []
  failed_products := []
  cart_url := none
  error := some "Job not found or expired"
  current_product := none

/-- The `check_fill_cart_progress` tool handler: a read of the store via
`getFillCartProgress` (whose lazy eviction is the only store effect),
returning either `notFoundPayload` or the stored fields verbatim. -/
def checkFillCartProgress (s : Store) (jobId : String) (now : Nat) :
    ProgressSnapshot × Store :=
  let r := getFillCartProgress s jobId now
  match r.1 with
  | none => (notFoundPayload, r.2)
  | some p =>
    ({ status := statusString p.status,
       added_products := p.added_products,
       failed_products := p.failed_products,
       cart_url := p.cart_url,
       error := p.error,
       current_product := p.current_product }, r.2)

/-- Applying a timestamped sequence of orchestrator updates to the store. -/
def runUpdates (s : Store) (jobId : String) :
    List (ProgressUpdate × Nat) → Store
  | [] => s
  | u :: rest => runUpdates (updateFillCartProgress s jobId u.1 u.2) jobId rest

/-- The sequence of stores observed during a run: the store before any
update, then after each successive update. -/
def storeScan (s : Store) (jobId : String) :
    List (ProgressUpdate × Nat) → List Store
  | [] => [s]
  | u :: rest => s :: storeScan (updateFillCartProgress s jobId u.1 u.2) jobId rest

/-- Folding a timestamped update sequence over a single job state. -/
def applyStates (st : FillCartProgressState) :
    List (ProgressUpdate × Nat) → FillCartProgressState
  | [] => st
  | u :: rest => applyStates (applyUpdate st u.1 u.2) rest

/-- The sequence of job states during a run, starting at the given state. -/
def stateScan (st : FillCartProgressState) :
    List (ProgressUpdate × Nat) → List FillCartProgressState
  | [] => [st]
  | u :: rest => st :: stateScan (applyUpdate st u.1 u.2) rest

/-- Per-snapshot observable invariant of claim C5: the added and failed
arrays are disjoint and every element of either comes from the original
input list (name+quantity identity is definitional equality of `Product`). -/
def snapOk (products : List Product) (st : FillCartProgressState) : Prop :=
  st.added_products.Disjoint st.failed_products ∧
  (∀ p ∈ st.added_products, p ∈ products) ∧
  (∀ p ∈ st.failed_products, p ∈ products)

/-- One snapshot extends another when both arrays grow append-only (so no
element is ever lost between successive snapshots). -/
def stateExtends (a b : FillCartProgressState) : Prop :=
  (∃ t, b.added_products = a.added_products ++ t) ∧
  (∃ t, b.failed_products = a.failed_products ++ t)

/-- The status steps allowed by claim C6: stay put, or move forward along
started -> running -> completed (running is skipped when the product list is
empty) or started -> failed. -/
def allowedStep : JobStatus → JobStatus → Prop := fun a b =>
  a = b ∨
  (a = JobStatus.started ∧ b = JobStatus.running) ∨
  (a = JobStatus.started ∧ b = JobStatus.completed) ∨
  (a = JobStatus.started ∧ b = JobStatus.failed) ∨
  (a = JobStatus.running ∧ b = JobStatus.completed)

/-! ### Basic store lemmas -/

theorem storeGet_storeSet_self (s : Store) (k : String)
    (v : FillCartProgressState) : storeGet (storeSet s k v) k = some v := by
  simp [storeGet, storeSet]

theorem storeGet_storeDelete_self (s : Store) (k : String) :
    storeGet (storeDelete s k) k = none := by
  simp [storeGet, storeDelete]

theorem updateFillCartProgress_get {s : Store} {jobId : String}
    {st : FillCartProgressState} (h : storeGet s jobId = some st)
    (u : ProgressUpdate) (now : Nat) :
    storeGet (updateFillCartProgress s jobId u now) jobId
      = some (applyUpdate st u now) := by
  simp [updateFillCartProgress, h, storeGet_storeSet_self]

theorem runUpdates_get {s : Store} {jobId : String}
    {st : FillCartProgressState} (h : storeGet s jobId = some st)
    (tus : List (ProgressUpdate × Nat)) :
    storeGet (runUpdates s jobId tus) jobId = some (applyStates st tus) := by
  induction tus generalizing s st with
  | nil => simpa [runUpdates, applyStates] using h
  | cons u rest ih =>
    simp only [runUpdates, applyStates]
    exact ih (updateFillCartProgress_get h u.1 u.2)

theorem storeScan_map_get {s : Store} {jobId : String}
    {st : FillCartProgressState} (h : storeGet s jobId = some st)
    (tus : List (ProgressUpdate × Nat)) :
    (storeScan s jobId tus).map (fun x => storeGet x jobId)
      = (stateScan st tus).map some := by
  induction tus generalizing s st with
  | nil => simp [storeScan, stateScan, h]
  | cons u rest ih =>
    have h2 := updateFillCartProgress_get h u.1 u.2
    simp only [storeScan, stateScan, List.map_cons]
    rw [ih h2]
    simp [h]

theorem stateScan_shape (st : FillCartProgressState)
    (tus : List (ProgressUpdate × Nat)) :
    ∃ l, stateScan st tus = st :: l := by
  cases tus with
  | nil => exact ⟨[], rfl⟩
  | cons u rest => exact ⟨_, rfl⟩

theorem stateScan_append_singleton (st : FillCartProgressState)
    (tus : List (ProgressUpdate × Nat)) (x : ProgressUpdate × Nat) :
    stateScan st (tus ++ [x])
      = stateScan st tus
        ++ [applyUpdate (applyStates st tus) x.1 x.2] := by
  induction tus generalizing st with
  | nil => simp [stateScan, applyStates]
  | cons u rest ih =>
    show st :: stateScan (applyUpdate st u.1 u.2) (rest ++ [x])
      = st :: (stateScan (applyUpdate st u.1 u.2) rest
          ++ [applyUpdate (applyStates (applyUpdate st u.1 u.2) rest) x.1 x.2])
    rw [ih]

/-! ### Claim theorems: store and API surface -/

/-- C7: the `fill-cart` handler inserts the `started` record (empty arrays,
null fields) into the store before the jobId is returned, so a progress
check issued immediately after sees status "started", never "not_found";
nothing of the product list has been processed when the call returns. -/
theorem c7_jobId_immediately_valid (s : Store) (products : List Product)
    (jobId : String) (now : Nat) :
    (fillCartHandler s products jobId now).2.1 = jobId ∧
    (fillCartHandler s products jobId now).2.2 = JobStatus.started ∧
    storeGet (fillCartHandler s products jobId now).1 jobId
      = some (initialJobState now) ∧
    (checkFillCartProgress (fillCartHandler s products jobId now).1 jobId now).1
      = { status := "started", added_products := [], failed_products := [],
          cart_url := none, error := none, current_product := none } ∧
    (checkFillCartProgress (fillCartHandler s products jobId now).1 jobId now).1.status
      ≠ "not_found" := by
  have hget : storeGet (fillCartHandler s products jobId now).1 jobId
      = some (initialJobState now) := storeGet_storeSet_self _ _ _
  have hchk : (checkFillCartProgress (fillCartHandler s products jobId now).1 jobId now).1
      = { status := "started", added_products := [], failed_products := [],
          cart_url := none, error := none, current_product := none } := by
    simp [checkFillCartProgress, getFillCartProgress, hget, initialJobState,
      statusString]
  refine ⟨rfl, rfl, hget, hchk, ?_⟩
  rw [hchk]
  decide

/-- C8: when the jobId exists, `updateFillCartProgress` merges exactly the
fields present in the update into the stored job (absent fields keep their
stored value) and refreshes `updatedAt`; when the jobId does not exist the
store is left entirely unchanged and no error is raised. -/
theorem c8_update_merge (s : Store) (jobId : String) (u : ProgressUpdate)
    (now : Nat) :
    (∀ st, storeGet s jobId = some st →
      updateFillCartProgress s jobId u now
        = storeSet s jobId (applyUpdate st u now) ∧
      (applyUpdate st u now).updatedAt = now ∧
      (u.status = none → (applyUpdate st u now).status = st.status) ∧
      (∀ v, u.status = some v → (applyUpdate st u now).status = v) ∧
      (u.added_products = none →
        (applyUpdate st u now).added_products = st.added_products) ∧
      (∀ v, u.added_products = some v →
        (applyUpdate st u now).added_products = v) ∧
      (u.failed_products = none →
        (applyUpdate st u now).failed_products = st.failed_products) ∧
      (∀ v, u.failed_products = some v →
        (applyUpdate st u now).failed_products = v) ∧
      (u.cart_url = none → (applyUpdate st u now).cart_url = st.cart_url) ∧
      (∀ v, u.cart_url = some v → (applyUpdate st u now).cart_url = v) ∧
      (u.error = none → (applyUpdate st u now).error = st.error) ∧
      (∀ v, u.error = some v → (applyUpdate st u now).error = v) ∧
      (u.current_product = none →
        (applyUpdate st u now).current_product = st.current_product) ∧
      (∀ v, u.current_product = some v →
        (applyUpdate st u now).current_product = v)) ∧
    (storeGet s jobId = none → updateFillCartProgress s jobId u now = s) := by
  constructor
  · intro st h
    refine ⟨by simp [updateFillCartProgress, h], rfl, ?_, ?_, ?_, ?_, ?_, ?_,
      ?_, ?_, ?_, ?_, ?_, ?_⟩ <;>
      first
        | (intro hn; simp [applyUpdate, hn])
        | (intro v hv; simp [applyUpdate, hv])
  · intro h
    simp [updateFillCartProgress, h]

/-- Witness for C8 at a concrete store, job and update. -/
theorem c8_update_merge_witness :
    updateFillCartProgress (storeSet emptyStore "job-a" (initialJobState 0))
        "job-a" (runningUpdate "Milk") 5
      = storeSet (storeSet emptyStore "job-a" (initialJobState 0)) "job-a"
          (applyUpdate (initialJobState 0) (runningUpdate "Milk") 5) :=
  ((c8_update_merge (storeSet emptyStore "job-a" (initialJobState 0)) "job-a"
      (runningUpdate "Milk") 5).1 (initialJobState 0)
      (storeGet_storeSet_self _ _ _)).1

/-- C10: reading a non-expired entry (age at most the 1-hour window, the
boundary included) returns it and leaves the store entirely unchanged, in
particular `updatedAt` is not refreshed, so polling never extends retention;
only an age strictly greater than the window triggers eviction. -/
theorem c10_get_frame (s : Store) (jobId : String)
    (st : FillCartProgressState) (now : Nat)
    (h : storeGet s jobId = some st) :
    (now - st.updatedAt ≤ FILL_CART_PROGRESS_TTL_MS →
        getFillCartProgress s jobId now = (some st, s)) ∧
    (now - st.updatedAt > FILL_CART_PROGRESS_TTL_MS →
        getFillCartProgress s jobId now = (none, storeDelete s jobId) ∧
        storeGet (storeDelete s jobId) jobId = none) := by
  constructor
  · intro hle
    simp [getFillCartProgress, h, Nat.not_lt.mpr hle]
  · intro hgt
    simp [getFillCartProgress, h, hgt, storeGet_storeDelete_self]

/-- Witness for C10 at the exact boundary: an entry whose age equals the
window is still returned and the store is untouched. -/
theorem c10_get_frame_witness :
    getFillCartProgress (storeSet emptyStore "job-a" (initialJobState 0))
        "job-a" FILL_CART_PROGRESS_TTL_MS
      = (some (initialJobState 0),
          storeSet emptyStore "job-a" (initialJobState 0)) :=
  (c10_get_frame (storeSet emptyStore "job-a" (initialJobState 0)) "job-a"
      (initialJobState 0) FILL_CART_PROGRESS_TTL_MS
      (storeGet_storeSet_self _ _ _)).1 (by decide)

/-- C4 counterexample: for an absent jobId the snapshot's `error` field is
the string "Job not found or expired", not null as the claim states. -/
theorem c4_counterexample :
    (checkFillCartProgress emptyStore "missing-job" 0).1.status = "not_found" ∧
    (checkFillCartProgress emptyStore "missing-job" 0).1.error
      = some "Job not found or expired" ∧
    (checkFillCartProgress emptyStore "missing-job" 0).1.error ≠ none :=
  ⟨rfl, rfl, by decide⟩

/-- C4 amended: for an absent or expired jobId the check returns status
"not_found" with empty arrays, null cart_url and current_product, and the
`error` field set to the string "Job not found or expired". -/
theorem c4_amended_not_found (s : Store) (jobId : String) (now : Nat)
    (h : (getFillCartProgress s jobId now).1 = none) :
    (checkFillCartProgress s jobId now).1 = notFoundPayload ∧
    notFoundPayload.status = "not_found" ∧
    notFoundPayload.added_products = [] ∧
    notFoundPayload.failed_products = [] ∧
    notFoundPayload.cart_url = none ∧
    notFoundPayload.current_product = none ∧
    notFoundPayload.error = some "Job not found or expired" := by
  refine ⟨?_, rfl, rfl, rfl, rfl, rfl, rfl⟩
  simp [checkFillCartProgress, h]

/-- Witness for C4 (amended) at a concrete absent jobId. -/
theorem c4_amended_not_found_witness :
    (checkFillCartProgress emptyStore "job-z" 5).1 = notFoundPayload :=
  (c4_amended_not_found emptyStore "job-z" 5 rfl).1

/-- C3 counterexample: an empty products list is not rejected — the schema
accepts it and the `fill-cart` handler creates the job record and returns
the jobId. -/
theorem c3_counterexample :
    validateFillCartInput (some ([] : List Product)) = Except.ok [] ∧
    (fillCartHandler emptyStore [] "job-empty" 0).2.1 = "job-empty" ∧
    storeGet (fillCartHandler emptyStore [] "job-empty" 0).1 "job-empty"
      = some (initialJobState 0) :=
  ⟨rfl, rfl, storeGet_storeSet_self _ _ _⟩

/-- C3 amended: an empty products list passes the schema (plain `z.array`
with no minimum length) and is processed like any other input: the job
record is created with status "started" and the jobId is returned; only a
missing products field fails validation. -/
theorem c3_amended_empty_accepted (s : Store) (jobId : String) (now : Nat) :
    validateFillCartInput (some ([] : List Product)) = Except.ok [] ∧
    validateFillCartInput none
      = Except.error "invalid input: products missing" ∧
    (fillCartHandler s [] jobId now).2.1 = jobId ∧
    (fillCartHandler s [] jobId now).2.2 = JobStatus.started ∧
    storeGet (fillCartHandler s [] jobId now).1 jobId
      = some (initialJobState now) :=
  ⟨rfl, rfl, rfl, rfl, storeGet_storeSet_self _ _ _⟩

theorem statusString_ne_not_found (j : JobStatus) :
    statusString j ≠ "not_found" := by
  cases j <;> decide

/-- C9 counterexample: a first check finds the job, a second check after the
retention window elapses — with no orchestrator activity in between —
returns a different snapshot (not_found), so repeated checks are not
unconditionally identical. -/
theorem c9_counterexample :
    (checkFillCartProgress (storeSet emptyStore "job-a" (initialJobState 0))
        "job-a" 0).1
      ≠ (checkFillCartProgress
          (checkFillCartProgress
            (storeSet emptyStore "job-a" (initialJobState 0)) "job-a" 0).2
          "job-a" (FILL_CART_PROGRESS_TTL_MS + 1)).1 := by
  decide

/-- C9 amended: repeated checks with no intervening orchestrator activity
return identical snapshots provided the retention window has not elapsed by
the later read (and the first read leaves the store untouched); moreover a
read that reports not_found is stable — every later read reports not_found
as well. -/
theorem c9_amended_idempotent (s : Store) (jobId : String) (t1 t2 : Nat) :
    (∀ st, storeGet s jobId = some st → t1 ≤ t2 →
      t2 - st.updatedAt ≤ FILL_CART_PROGRESS_TTL_MS →
      (checkFillCartProgress s jobId t1).2 = s ∧
      (checkFillCartProgress (checkFillCartProgress s jobId t1).2 jobId t2).1
        = (checkFillCartProgress s jobId t1).1) ∧
    ((checkFillCartProgress s jobId t1).1 = notFoundPayload →
      (checkFillCartProgress (checkFillCartProgress s jobId t1).2 jobId t2).1
        = notFoundPayload) := by
  constructor
  · intro st h hle hwin
    have h1 : t1 - st.updatedAt ≤ FILL_CART_PROGRESS_TTL_MS :=
      le_trans (Nat.sub_le_sub_right hle _) hwin
    have e1 : checkFillCartProgress s jobId t1
        = ({ status := statusString st.status,
             added_products := st.added_products,
             failed_products := st.failed_products,
             cart_url := st.cart_url, error := st.error,
             current_product := st.current_product }, s) := by
      simp [checkFillCartProgress, getFillCartProgress, h, Nat.not_lt.mpr h1]
    rw [e1]
    refine ⟨rfl, ?_⟩
    simp [checkFillCartProgress, getFillCartProgress, h, Nat.not_lt.mpr hwin]
  · intro h1
    match hg : storeGet s jobId with
    | none =>
      simp [checkFillCartProgress, getFillCartProgress, hg]
    | some st =>
      by_cases hexp : t1 - st.updatedAt > FILL_CART_PROGRESS_TTL_MS
      · have e1 : checkFillCartProgress s jobId t1
            = (notFoundPayload, storeDelete s jobId) := by
          simp [checkFillCartProgress, getFillCartProgress, hg, hexp]
        rw [e1]
        simp [checkFillCartProgress, getFillCartProgress,
          storeGet_storeDelete_self]
      · exfalso
        have e1 : (checkFillCartProgress s jobId t1).1.status
            = statusString st.status := by
          simp [checkFillCartProgress, getFillCartProgress, hg, hexp]
        rw [h1] at e1
        exact statusString_ne_not_found st.status e1.symm

/-- Witness for C9 (amended) at a concrete store and two in-window times. -/
theorem c9_amended_idempotent_witness :
    (checkFillCartProgress (storeSet emptyStore "job-a" (initialJobState 0))
        "job-a" 0).2
      = storeSet emptyStore "job-a" (initialJobState 0) ∧
    (checkFillCartProgress
        (checkFillCartProgress (storeSet emptyStore "job-a" (initialJobState 0))
            "job-a" 0).2
        "job-a" FILL_CART_PROGRESS_TTL_MS).1
      = (checkFillCartProgress (storeSet emptyStore "job-a" (initialJobState 0))
          "job-a" 0).1 :=
  (c9_amended_idempotent (storeSet emptyStore "job-a" (initialJobState 0))
      "job-a" 0 FILL_CART_PROGRESS_TTL_MS).1 (initialJobState 0)
    (storeGet_storeSet_self _ _ _) (by decide) (by decide)

/-! ### Trace decomposition helpers -/

theorem applyStates_append (st : FillCartProgressState)
    (l1 l2 : List (ProgressUpdate × Nat)) :
    applyStates st (l1 ++ l2) = applyStates (applyStates st l1) l2 := by
  induction l1 generalizing st with
  | nil => rfl
  | cons u rest ih => exact ih (applyUpdate st u.1 u.2)

theorem map_fst_singleton {tus : List (ProgressUpdate × Nat)}
    {x : ProgressUpdate} (h : tus.map Prod.fst = [x]) :
    ∃ t, tus = [(x, t)] := by
  cases tus with
  | nil => simp at h
  | cons a l =>
    cases l with
    | nil =>
      simp only [List.map_cons, List.map_nil, List.cons.injEq, and_true] at h
      subst h
      exact ⟨a.2, by simp⟩
    | cons b m => simp at h

theorem map_fst_append_singleton {tus : List (ProgressUpdate × Nat)}
    {l : List ProgressUpdate} {x : ProgressUpdate}
    (h : tus.map Prod.fst = l ++ [x]) :
    ∃ tus1 t, tus = tus1 ++ [(x, t)] ∧ tus1.map Prod.fst = l := by
  induction tus generalizing l with
  | nil =>
    exfalso
    have hl := congrArg List.length h
    simp at hl
  | cons a rest ih =>
    cases l with
    | nil =>
      simp only [List.nil_append] at h
      obtain ⟨t, ht⟩ := map_fst_singleton h
      exact ⟨[], t, by simpa using ht, rfl⟩
    | cons y l2 =>
      simp only [List.map_cons, List.cons_append, List.cons.injEq] at h
      obtain ⟨h1, h2⟩ := h
      obtain ⟨tus1, t, ht, hm⟩ := ih h2
      exact ⟨a :: tus1, t, by rw [ht]; rfl, by simp [hm, h1]⟩

theorem loopTrace_all_fail (taskOk : Nat → Bool)
    (products : List Product) :
    ∀ added failed : List Product, (∀ n, taskOk n = false) →
    (loopTrace taskOk products added failed).2 = (added, failed ++ products) := by
  induction products generalizing taskOk with
  | nil => intro added failed _; simp [loopTrace]
  | cons p rest ih =>
    intro added failed hfail
    have h0 := hfail 0
    simp only [loopTrace, h0, Bool.false_eq_true, if_false]
    rw [ih (fun n => taskOk (n + 1)) added (failed ++ [p])
      (fun n => hfail (n + 1))]
    simp

theorem loopTrace_status_running (taskOk : Nat → Bool)
    (products : List Product) :
    ∀ added failed : List Product,
    ∀ u ∈ (loopTrace taskOk products added failed).1,
      u.status = none ∨ u.status = some JobStatus.running := by
  induction products generalizing taskOk with
  | nil => intro added failed u hu; simp [loopTrace] at hu
  | cons p rest ih =>
    intro added failed u hu
    by_cases h0 : taskOk 0 = true
    · simp only [loopTrace, h0, if_true, List.mem_cons] at hu
      rcases hu with h | h | h
      · exact Or.inr (by simp [h, runningUpdate])
      · exact Or.inl (by simp [h, itemUpdate])
      · exact ih (fun n => taskOk (n + 1)) (added ++ [p]) failed u h
    · simp only [Bool.not_eq_true] at h0
      simp only [loopTrace, h0, Bool.false_eq_true, if_false,
        List.mem_cons] at hu
      rcases hu with h | h | h
      · exact Or.inr (by simp [h, runningUpdate])
      · exact Or.inl (by simp [h, itemUpdate])
      · exact ih (fun n => taskOk (n + 1)) added (failed ++ [p]) u h

theorem trace_status_not_failed (env : AutomationEnv)
    (products : List Product)
    (hsess : env.sessionResult = Except.ok ())
    (hsetup : env.setupResult = Except.ok ()) :
    ∀ u ∈ fillShoppingCartTrace env products,
      u.status ≠ some JobStatus.failed := by
  intro u hu
  simp only [fillShoppingCartTrace, hsess, hsetup, List.mem_append,
    List.mem_singleton] at hu
  rcases hu with h | h
  · rcases loopTrace_status_running env.productTaskOk products [] [] u h with
      h2 | h2 <;> simp [h2]
  · simp [h, completedUpdate]

theorem stateScan_status_mem (st : FillCartProgressState)
    (tus : List (ProgressUpdate × Nat)) :
    ∀ x ∈ stateScan st tus, x.status = st.status ∨
      ∃ u ∈ tus.map Prod.fst, u.status = some x.status := by
  induction tus generalizing st with
  | nil => intro x hx; simp only [stateScan, List.mem_singleton] at hx
           exact Or.inl (by rw [hx])
  | cons u rest ih =>
    intro x hx
    simp only [stateScan, List.mem_cons] at hx
    rcases hx with h | h
    · exact Or.inl (by rw [h])
    · rcases ih (applyUpdate st u.1 u.2) x h with h2 | h2
      · match hs : u.1.status with
        | none =>
          refine Or.inl ?_
          rw [h2]; simp [applyUpdate, hs]
        | some v =>
          refine Or.inr ⟨u.1, by simp, ?_⟩
          rw [hs, h2]; simp [applyUpdate, hs]
      · obtain ⟨u2, hu2, hs2⟩ := h2
        exact Or.inr ⟨u2, List.mem_cons_of_mem _ hu2, hs2⟩

/-! ### Claim theorems: orchestrator outcomes -/

/-- C1: for a non-empty product list, when the automation session is created
and the preliminary setup task succeeds but every per-product automation
task raises, the final snapshot has status "completed" (not "failed") with
failedProducts equal to the full input list in order and addedProducts
empty; moreover no snapshot of the run ever carries status "failed" —
per-item failures never produce it. -/
theorem c1_all_items_fail_completed (s : Store) (jobId : String) (now : Nat)
    (env : AutomationEnv) (products : List Product)
    (tus : List (ProgressUpdate × Nat))
    (hne : products ≠ [])
    (hsess : env.sessionResult = Except.ok ())
    (hsetup : env.setupResult = Except.ok ())
    (hfail : ∀ n, env.productTaskOk n = false)
    (htr : tus.map Prod.fst = fillShoppingCartTrace env products) :
    (∃ st, storeGet
        (runUpdates (fillCartHandler s products jobId now).1 jobId tus) jobId
        = some st ∧
      st.status = JobStatus.completed ∧
      st.failed_products = products ∧
      st.added_products = []) ∧
    ∀ x ∈ (storeScan (fillCartHandler s products jobId now).1 jobId tus).map
        (fun q => storeGet q jobId),
      ∀ stx, x = some stx → stx.status ≠ JobStatus.failed := by
  have hget0 : storeGet (fillCartHandler s products jobId now).1 jobId
      = some (initialJobState now) := storeGet_storeSet_self _ _ _
  constructor
  · have hacc := loopTrace_all_fail env.productTaskOk products [] [] hfail
    have htrace : fillShoppingCartTrace env products
        = (loopTrace env.productTaskOk products [] []).1
          ++ [completedUpdate [] products env.cartNavUrl] := by
      simp only [fillShoppingCartTrace, hsess, hsetup]
      rw [show (loopTrace env.productTaskOk products [] []).2.1 = [] by
            rw [hacc],
          show (loopTrace env.productTaskOk products [] []).2.2 = products by
            rw [hacc]; simp]
    rw [htrace] at htr
    obtain ⟨tus1, t, ht, hm⟩ := map_fst_append_singleton htr
    subst ht
    refine ⟨_, runUpdates_get hget0 _, ?_⟩
    rw [applyStates_append]
    simp [applyStates, applyUpdate, completedUpdate]
  · intro x hx stx hsome hfd
    rw [storeScan_map_get hget0] at hx
    obtain ⟨st2, hst2, hx2⟩ := List.mem_map.mp hx
    rw [← hx2] at hsome
    have hstx : st2 = stx := Option.some.injEq .. ▸ hsome
    subst hstx
    rcases stateScan_status_mem (initialJobState now) tus st2 hst2 with
      h2 | ⟨u, hu, hs⟩
    · rw [hfd] at h2
      simp [initialJobState] at h2
    · rw [htr] at hu
      rw [hfd] at hs
      exact trace_status_not_failed env products hsess hsetup u hu hs

/-- Witness for C1 at the spec's Scenario B input. -/
theorem c1_all_items_fail_completed_witness :
    (∃ st, storeGet
        (runUpdates
          (fillCartHandler emptyStore [⟨"RareCheese", "200g"⟩] "job-b" 0).1
          "job-b"
          [(runningUpdate "RareCheese", 1),
           (itemUpdate [] [⟨"RareCheese", "200g"⟩] none, 2),
           (completedUpdate [] [⟨"RareCheese", "200g"⟩] none, 3)]) "job-b"
        = some st ∧
      st.status = JobStatus.completed ∧
      st.failed_products = [⟨"RareCheese", "200g"⟩] ∧
      st.added_products = []) ∧
    ∀ x ∈ (storeScan
        (fillCartHandler emptyStore [⟨"RareCheese", "200g"⟩] "job-b" 0).1
        "job-b"
        [(runningUpdate "RareCheese", 1),
         (itemUpdate [] [⟨"RareCheese", "200g"⟩] none, 2),
         (completedUpdate [] [⟨"RareCheese", "200g"⟩] none, 3)]).map
        (fun q => storeGet q "job-b"),
      ∀ stx, x = some stx → stx.status ≠ JobStatus.failed :=
  c1_all_items_fail_completed emptyStore "job-b" 0
    ⟨Except.ok (), Except.ok (), fun _ => false, none⟩
    [⟨"RareCheese", "200g"⟩] _ (by decide) rfl rfl (fun _ => rfl) rfl

/-- C2 counterexample: with the session created but the preliminary setup
task raising, the published trace is the single failed update — the
per-product loop never runs despite a non-empty product list — and the
job's final snapshot has status "failed"; setup-task failure is fatal, not
tolerated. -/
theorem c2_counterexample :
    fillShoppingCartTrace
        ⟨Except.ok (), Except.error "setup failed", fun _ => true, none⟩
        [⟨"Milk", "1L"⟩]
      = [failedUpdate "setup failed"] ∧
    ∃ st, storeGet
        (runUpdates (fillCartHandler emptyStore [⟨"Milk", "1L"⟩] "job-a" 0).1
          "job-a" [(failedUpdate "setup failed", 1)]) "job-a"
        = some st ∧
      st.status = JobStatus.failed ∧
      st.added_products = [] ∧
      st.failed_products = [] := by
  refine ⟨rfl, ⟨_, rfl, rfl, rfl, rfl⟩⟩

/-- C2 amended: failure of the preliminary setup task is fatal, exactly like
session-establishment failure: the orchestrator publishes only the failed
update, the per-product loop never runs, and the job transitions to status
"failed" with the raised error and empty arrays. -/
theorem c2_amended_setup_fatal (s : Store) (jobId : String) (now : Nat)
    (env : AutomationEnv) (products : List Product) (e : String)
    (tus : List (ProgressUpdate × Nat))
    (hsess : env.sessionResult = Except.ok ())
    (hsetup : env.setupResult = Except.error e)
    (htr : tus.map Prod.fst = fillShoppingCartTrace env products) :
    fillShoppingCartTrace env products = [failedUpdate e] ∧
    ∃ st, storeGet
        (runUpdates (fillCartHandler s products jobId now).1 jobId tus) jobId
        = some st ∧
      st.status = JobStatus.failed ∧
      st.error = some e ∧
      st.added_products = [] ∧
      st.failed_products = [] ∧
      st.current_product = none := by
  have htrace : fillShoppingCartTrace env products = [failedUpdate e] := by
    simp [fillShoppingCartTrace, hsess, hsetup]
  rw [htrace] at htr
  obtain ⟨t, ht⟩ := map_fst_singleton htr
  subst ht
  have hget0 : storeGet (fillCartHandler s products jobId now).1 jobId
      = some (initialJobState now) := storeGet_storeSet_self _ _ _
  refine ⟨htrace, _, runUpdates_get hget0 _, ?_, ?_, ?_, ?_, ?_⟩ <;>
    simp [applyStates, applyUpdate, failedUpdate, initialJobState]

/-- Witness for C2 (amended) at a concrete run. -/
theorem c2_amended_setup_fatal_witness :
    fillShoppingCartTrace
        ⟨Except.ok (), Except.error "no slot", fun _ => true, none⟩
        [⟨"Milk", "1L"⟩]
      = [failedUpdate "no slot"] ∧
    ∃ st, storeGet
        (runUpdates (fillCartHandler emptyStore [⟨"Milk", "1L"⟩] "job-c" 0).1
          "job-c" [(failedUpdate "no slot", 1)]) "job-c"
        = some st ∧
      st.status = JobStatus.failed ∧
      st.error = some "no slot" ∧
      st.added_products = [] ∧
      st.failed_products = [] ∧
      st.current_product = none :=
  c2_amended_setup_fatal emptyStore "job-c" 0
    ⟨Except.ok (), Except.error "no slot", fun _ => true, none⟩
    [⟨"Milk", "1L"⟩] "no slot" [(failedUpdate "no slot", 1)] rfl rfl rfl

theorem map_fst_cons_cons {tus : List (ProgressUpdate × Nat)}
    {A B : ProgressUpdate} {l : List ProgressUpdate}
    (h : tus.map Prod.fst = A :: B :: l) :
    ∃ t1 t2 tus', tus = (A, t1) :: (B, t2) :: tus'
      ∧ tus'.map Prod.fst = l := by
  cases tus with
  | nil => simp at h
  | cons a tus0 =>
    cases tus0 with
    | nil => simp at h
    | cons b tus' =>
      simp only [List.map_cons, List.cons.injEq] at h
      obtain ⟨h1, h2, h3⟩ := h
      exact ⟨a.2, b.2, tus', by rw [← h1, ← h2], h3⟩


theorem loop_scan_chain (rest : List Product) :
    ∀ (taskOk : Nat → Bool) (added failed : List Product)
      (st : FillCartProgressState) (tus : List (ProgressUpdate × Nat))
      (fin : ProgressUpdate) (tf : Nat),
    tus.map Prod.fst = (loopTrace taskOk rest added failed).1 →
    (st.status = JobStatus.started ∨ st.status = JobStatus.running) →
    fin.status = some JobStatus.completed →
    List.Chain' (fun a b => allowedStep a.status b.status)
        (stateScan st (tus ++ [(fin, tf)])) ∧
    (∀ x ∈ (stateScan st (tus ++ [(fin, tf)])).dropLast,
        x.status = st.status ∨ x.status = JobStatus.running) ∧
    (∀ x ∈ (stateScan st (tus ++ [(fin, tf)])).tail,
        x.status = JobStatus.running ∨ x.status = JobStatus.completed) := by
  induction rest with
  | nil =>
    intro taskOk added failed st tus fin tf htr hst hfin
    have htus : tus = [] := by
      have h2 : tus.map Prod.fst = [] := by simpa [loopTrace] using htr
      exact List.map_eq_nil_iff.mp h2
    subst htus
    have hstf : (applyUpdate st fin tf).status = JobStatus.completed := by
      simp [applyUpdate, hfin]
    refine ⟨?_, ?_, ?_⟩
    · show List.Chain' _ [st, applyUpdate st fin tf]
      refine List.chain'_cons.mpr ⟨?_, List.chain'_singleton _⟩
      rw [hstf]
      rcases hst with h | h <;> rw [h] <;> simp [allowedStep]
    · intro x hx
      show _ ∨ _
      simp only [List.nil_append, stateScan, List.dropLast_cons₂,
        List.dropLast_single, List.mem_singleton] at hx
      exact Or.inl (by rw [hx])
    · intro x hx
      show _ ∨ _
      simp only [List.nil_append, stateScan, List.tail_cons,
        List.mem_singleton] at hx
      exact Or.inr (by rw [hx, hstf])
  | cons p r ih =>
    intro taskOk added failed st tus fin tf htr hst hfin
    by_cases h0 : taskOk 0 = true
    · simp only [loopTrace, h0, if_true] at htr
      obtain ⟨t1, t2, tus', htus, htr'⟩ := map_fst_cons_cons htr
      subst htus
      set st1 := applyUpdate st (runningUpdate p.name) t1 with hst1def
      set st2 := applyUpdate st1
        (itemUpdate (added ++ [p]) failed (Option.map Product.name r.head?))
        t2 with hst2def
      have hst1 : st1.status = JobStatus.running := by
        simp [hst1def, applyUpdate, runningUpdate]
      have hst2 : st2.status = JobStatus.running := by
        simp [hst2def, applyUpdate, itemUpdate, hst1]
      obtain ⟨hch, hdl, htl⟩ := ih (fun n => taskOk (n + 1)) (added ++ [p])
        failed st2 tus' fin tf htr' (Or.inr hst2) hfin
      obtain ⟨L, hL⟩ := stateScan_shape st2 (tus' ++ [(fin, tf)])
      have hshape : stateScan st (((runningUpdate p.name, t1)
            :: (itemUpdate (added ++ [p]) failed
                (Option.map Product.name r.head?), t2) :: tus')
          ++ [(fin, tf)])
          = st :: st1 :: stateScan st2 (tus' ++ [(fin, tf)]) := rfl
      refine ⟨?_, ?_, ?_⟩
      · rw [hshape, hL]
        rw [hL] at hch
        refine List.chain'_cons.mpr ⟨?_, List.chain'_cons.mpr ⟨?_, hch⟩⟩
        · rw [hst1]
          rcases hst with h | h <;> rw [h] <;> simp [allowedStep]
        · rw [hst1, hst2]
          exact Or.inl rfl
      · intro x hx
        rw [hshape, hL] at hx
        rw [hL] at hdl
        simp only [List.dropLast_cons₂, List.mem_cons] at hx
        rcases hx with h | h | h
        · exact Or.inl (by rw [h])
        · exact Or.inr (by rw [h, hst1])
        · rcases hdl x (by simpa [List.dropLast_cons₂] using h) with h2 | h2
          · exact Or.inr (by rw [h2, hst2])
          · exact Or.inr h2
      · intro x hx
        rw [hshape, hL] at hx
        rw [hL] at htl
        simp only [List.tail_cons, List.mem_cons] at hx
        rcases hx with h | h | h
        · exact Or.inl (by rw [h, hst1])
        · exact Or.inl (by rw [h, hst2])
        · exact htl x (by simpa using h)
    · have h0f : taskOk 0 = false := by simpa using h0
      simp only [loopTrace, h0f, Bool.false_eq_true, if_false] at htr
      obtain ⟨t1, t2, tus', htus, htr'⟩ := map_fst_cons_cons htr
      subst htus
      set st1 := applyUpdate st (runningUpdate p.name) t1 with hst1def
      set st2 := applyUpdate st1
        (itemUpdate added (failed ++ [p]) (Option.map Product.name r.head?))
        t2 with hst2def
      have hst1 : st1.status = JobStatus.running := by
        simp [hst1def, applyUpdate, runningUpdate]
      have hst2 : st2.status = JobStatus.running := by
        simp [hst2def, applyUpdate, itemUpdate, hst1]
      obtain ⟨hch, hdl, htl⟩ := ih (fun n => taskOk (n + 1)) added
        (failed ++ [p]) st2 tus' fin tf htr' (Or.inr hst2) hfin
      obtain ⟨L, hL⟩ := stateScan_shape st2 (tus' ++ [(fin, tf)])
      have hshape : stateScan st (((runningUpdate p.name, t1)
            :: (itemUpdate added (failed ++ [p])
                (Option.map Product.name r.head?), t2) :: tus')
          ++ [(fin, tf)])
          = st :: st1 :: stateScan st2 (tus' ++ [(fin, tf)]) := rfl
      refine ⟨?_, ?_, ?_⟩
      · rw [hshape, hL]
        rw [hL] at hch
        refine List.chain'_cons.mpr ⟨?_, List.chain'_cons.mpr ⟨?_, hch⟩⟩
        · rw [hst1]
          rcases hst with h | h <;> rw [h] <;> simp [allowedStep]
        · rw [hst1, hst2]
          exact Or.inl rfl
      · intro x hx
        rw [hshape, hL] at hx
        rw [hL] at hdl
        simp only [List.dropLast_cons₂, List.mem_cons] at hx
        rcases hx with h | h | h
        · exact Or.inl (by rw [h])
        · exact Or.inr (by rw [h, hst1])
        · rcases hdl x (by simpa [List.dropLast_cons₂] using h) with h2 | h2
          · exact Or.inr (by rw [h2, hst2])
          · exact Or.inr h2
      · intro x hx
        rw [hshape, hL] at hx
        rw [hL] at htl
        simp only [List.tail_cons, List.mem_cons] at hx
        rcases hx with h | h | h
        · exact Or.inl (by rw [h, hst1])
        · exact Or.inl (by rw [h, hst2])
        · exact htl x (by simpa using h)

/-- C6: across the sequence of store updates of a run, every observed job
state exists, consecutive statuses only move forward along
started -> running -> completed or started -> failed, started is never
revisited after the first snapshot, and no update follows a terminal
(completed or failed) status. -/
theorem c6_status_monotone (s : Store) (jobId : String) (now : Nat)
    (env : AutomationEnv) (products : List Product)
    (tus : List (ProgressUpdate × Nat))
    (htr : tus.map Prod.fst = fillShoppingCartTrace env products) :
    ∃ states : List FillCartProgressState,
      (storeScan (fillCartHandler s products jobId now).1 jobId tus).map
          (fun q => storeGet q jobId)
        = states.map some ∧
      List.Chain' (fun a b => allowedStep a.status b.status) states ∧
      (∀ x ∈ states.tail, x.status ≠ JobStatus.started) ∧
      (∀ x ∈ states.dropLast,
        x.status ≠ JobStatus.completed ∧ x.status ≠ JobStatus.failed) := by
  have hget0 : storeGet (fillCartHandler s products jobId now).1 jobId
      = some (initialJobState now) := storeGet_storeSet_self _ _ _
  refine ⟨stateScan (initialJobState now) tus,
    storeScan_map_get hget0 tus, ?_⟩
  have hstart : (initialJobState now).status = JobStatus.started := rfl
  cases hsess : env.sessionResult with
  | error e =>
    simp only [fillShoppingCartTrace, hsess] at htr
    obtain ⟨t, ht⟩ := map_fst_singleton htr
    subst ht
    have hst1 : (applyUpdate (initialJobState now) (failedUpdate e) t).status
        = JobStatus.failed := by simp [applyUpdate, failedUpdate]
    refine ⟨?_, ?_, ?_⟩
    · refine List.chain'_cons.mpr ⟨?_, List.chain'_singleton _⟩
      rw [hstart, hst1]
      simp [allowedStep]
    · intro x hx
      simp only [stateScan, List.tail_cons, List.mem_singleton] at hx
      rw [hx, hst1]
      simp
    · intro x hx
      simp only [stateScan, List.dropLast_cons₂, List.dropLast_single,
        List.mem_singleton] at hx
      rw [hx, hstart]
      simp
  | ok u =>
    cases hsetup : env.setupResult with
    | error e =>
      simp only [fillShoppingCartTrace, hsess, hsetup] at htr
      obtain ⟨t, ht⟩ := map_fst_singleton htr
      subst ht
      have hst1 : (applyUpdate (initialJobState now) (failedUpdate e) t).status
          = JobStatus.failed := by simp [applyUpdate, failedUpdate]
      refine ⟨?_, ?_, ?_⟩
      · refine List.chain'_cons.mpr ⟨?_, List.chain'_singleton _⟩
        rw [hstart, hst1]
        simp [allowedStep]
      · intro x hx
        simp only [stateScan, List.tail_cons, List.mem_singleton] at hx
        rw [hx, hst1]
        simp
      · intro x hx
        simp only [stateScan, List.dropLast_cons₂, List.dropLast_single,
          List.mem_singleton] at hx
        rw [hx, hstart]
        simp
    | ok u2 =>
      simp only [fillShoppingCartTrace, hsess, hsetup] at htr
      obtain ⟨tus1, t, ht, hm⟩ := map_fst_append_singleton htr
      subst ht
      obtain ⟨hch, hdl, htl⟩ := loop_scan_chain products env.productTaskOk
        [] [] (initialJobState now) tus1
        (completedUpdate (loopTrace env.productTaskOk products [] []).2.1
          (loopTrace env.productTaskOk products [] []).2.2 env.cartNavUrl)
        t hm (Or.inl hstart) (by simp [completedUpdate])
      refine ⟨hch, ?_, ?_⟩
      · intro x hx
        rcases htl x hx with h2 | h2 <;> rw [h2] <;> simp
      · intro x hx
        rcases hdl x hx with h2 | h2
        · rw [hstart] at h2
          rw [h2]
          simp
        · rw [h2]
          simp

theorem snapOk_of_arrays {P0 added failed : List Product}
    {st : FillCartProgressState}
    (hA : st.added_products = added) (hF : st.failed_products = failed)
    (hd : added.Disjoint failed) (hsubA : ∀ p ∈ added, p ∈ P0)
    (hsubF : ∀ p ∈ failed, p ∈ P0) : snapOk P0 st := by
  refine ⟨?_, ?_, ?_⟩
  · rw [hA, hF]; exact hd
  · rw [hA]; exact hsubA
  · rw [hF]; exact hsubF

theorem loop_scan_snapOk (P0 : List Product) (rest : List Product) :
    ∀ (taskOk : Nat → Bool) (added failed : List Product)
      (st : FillCartProgressState) (tus : List (ProgressUpdate × Nat))
      (cart : Option String) (tf : Nat),
    tus.map Prod.fst = (loopTrace taskOk rest added failed).1 →
    st.added_products = added →
    st.failed_products = failed →
    added.Disjoint failed →
    (∀ p ∈ added, p ∈ P0) →
    (∀ p ∈ failed, p ∈ P0) →
    (∀ p ∈ rest, p ∈ P0) →
    (∀ p ∈ rest, p ∉ added ∧ p ∉ failed) →
    rest.Nodup →
    (∀ x ∈ stateScan st (tus ++
        [(completedUpdate (loopTrace taskOk rest added failed).2.1
            (loopTrace taskOk rest added failed).2.2 cart, tf)]),
      snapOk P0 x) ∧
    List.Chain' stateExtends (stateScan st (tus ++
        [(completedUpdate (loopTrace taskOk rest added failed).2.1
            (loopTrace taskOk rest added failed).2.2 cart, tf)])) := by
  induction rest with
  | nil =>
    intro taskOk added failed st tus cart tf htr hA hF hd hsubA hsubF
      hrest hfr hnd
    have htus : tus = [] := by
      have h2 : tus.map Prod.fst = [] := by simpa [loopTrace] using htr
      exact List.map_eq_nil_iff.mp h2
    subst htus
    have hok : snapOk P0 st := snapOk_of_arrays hA hF hd hsubA hsubF
    have hstfA : (applyUpdate st
        (completedUpdate (loopTrace taskOk [] added failed).2.1
          (loopTrace taskOk [] added failed).2.2 cart) tf).added_products
        = added := by
      simp [applyUpdate, completedUpdate, loopTrace]
    have hstfF : (applyUpdate st
        (completedUpdate (loopTrace taskOk [] added failed).2.1
          (loopTrace taskOk [] added failed).2.2 cart) tf).failed_products
        = failed := by
      simp [applyUpdate, completedUpdate, loopTrace]
    constructor
    · intro x hx
      simp only [List.nil_append, stateScan, List.mem_cons,
        List.mem_singleton, List.not_mem_nil, or_false] at hx
      rcases hx with h | h
      · rw [h]; exact hok
      · rw [h]
        exact snapOk_of_arrays hstfA hstfF hd hsubA hsubF
    · show List.Chain' _ [st, _]
      refine List.chain'_cons.mpr ⟨?_, List.chain'_singleton _⟩
      exact ⟨⟨[], by rw [hstfA, hA, List.append_nil]⟩,
        ⟨[], by rw [hstfF, hF, List.append_nil]⟩⟩
  | cons p r ih =>
    intro taskOk added failed st tus cart tf htr hA hF hd hsubA hsubF
      hrest hfr hnd
    have hpP0 : p ∈ P0 := hrest p (List.mem_cons_self p r)
    have hpA : p ∉ added := (hfr p (List.mem_cons_self p r)).1
    have hpF : p ∉ failed := (hfr p (List.mem_cons_self p r)).2
    have hpr : p ∉ r := (List.nodup_cons.mp hnd).1
    have hndr : r.Nodup := (List.nodup_cons.mp hnd).2
    by_cases h0 : taskOk 0 = true
    · simp only [loopTrace, h0, if_true] at htr
      have hproj : (loopTrace taskOk (p :: r) added failed).2
          = (loopTrace (fun n => taskOk (n + 1)) r (added ++ [p]) failed).2 := by
        simp [loopTrace, h0]
      rw [hproj]
      obtain ⟨t1, t2, tus', htus, htr'⟩ := map_fst_cons_cons htr
      subst htus
      set st1 := applyUpdate st (runningUpdate p.name) t1 with hst1def
      set st2 := applyUpdate st1
        (itemUpdate (added ++ [p]) failed (Option.map Product.name r.head?))
        t2 with hst2def
      have hst1A : st1.added_products = added := by
        simp [hst1def, applyUpdate, runningUpdate, hA]
      have hst1F : st1.failed_products = failed := by
        simp [hst1def, applyUpdate, runningUpdate, hF]
      have hst2A : st2.added_products = added ++ [p] := by
        simp [hst2def, applyUpdate, itemUpdate]
      have hst2F : st2.failed_products = failed := by
        simp [hst2def, applyUpdate, itemUpdate]
      have hd2 : (added ++ [p]).Disjoint failed := by
        rw [List.disjoint_append_left]
        exact ⟨hd, List.singleton_disjoint.mpr hpF⟩
      have hsubA2 : ∀ q ∈ added ++ [p], q ∈ P0 := by
        intro q hq
        rcases List.mem_append.mp hq with h | h
        · exact hsubA q h
        · rw [List.mem_singleton.mp h]; exact hpP0
      have hrest2 : ∀ q ∈ r, q ∈ P0 := fun q hq =>
        hrest q (List.mem_cons_of_mem p hq)
      have hfr2 : ∀ q ∈ r, q ∉ added ++ [p] ∧ q ∉ failed := by
        intro q hq
        refine ⟨?_, (hfr q (List.mem_cons_of_mem p hq)).2⟩
        intro hmem
        rcases List.mem_append.mp hmem with h | h
        · exact (hfr q (List.mem_cons_of_mem p hq)).1 h
        · exact hpr (List.mem_singleton.mp h ▸ hq)
      obtain ⟨hmem, hch⟩ := ih (fun n => taskOk (n + 1)) (added ++ [p])
        failed st2 tus' cart tf htr' hst2A hst2F hd2 hsubA2 hsubF
        hrest2 hfr2 hndr
      obtain ⟨L, hL⟩ := stateScan_shape st2 (tus' ++
        [(completedUpdate
            (loopTrace (fun n => taskOk (n + 1)) r (added ++ [p]) failed).2.1
            (loopTrace (fun n => taskOk (n + 1)) r (added ++ [p]) failed).2.2
            cart, tf)])
      have hok : snapOk P0 st := snapOk_of_arrays hA hF hd hsubA hsubF
      have hok1 : snapOk P0 st1 := snapOk_of_arrays hst1A hst1F hd hsubA hsubF
      constructor
      · intro x hx
        simp only [List.cons_append, stateScan, List.mem_cons] at hx
        rcases hx with h | h | h
        · rw [h]; exact hok
        · rw [h]; exact hok1
        · exact hmem x h
      · show List.Chain' stateExtends
          (st :: st1 :: stateScan st2 (tus' ++
            [(completedUpdate
                (loopTrace (fun n => taskOk (n + 1)) r (added ++ [p])
                  failed).2.1
                (loopTrace (fun n => taskOk (n + 1)) r (added ++ [p])
                  failed).2.2 cart, tf)]))
        rw [hL]
        rw [hL] at hch
        refine List.chain'_cons.mpr ⟨?_, List.chain'_cons.mpr ⟨?_, hch⟩⟩
        · exact ⟨⟨[], by rw [hst1A, hA, List.append_nil]⟩,
            ⟨[], by rw [hst1F, hF, List.append_nil]⟩⟩
        · exact ⟨⟨[p], by rw [hst2A, hst1A]⟩,
            ⟨[], by rw [hst2F, hst1F, List.append_nil]⟩⟩
    · have h0f : taskOk 0 = false := by simpa using h0
      simp only [loopTrace, h0f, Bool.false_eq_true, if_false] at htr
      have hproj : (loopTrace taskOk (p :: r) added failed).2
          = (loopTrace (fun n => taskOk (n + 1)) r added (failed ++ [p])).2 := by
        simp [loopTrace, h0f]
      rw [hproj]
      obtain ⟨t1, t2, tus', htus, htr'⟩ := map_fst_cons_cons htr
      subst htus
      set st1 := applyUpdate st (runningUpdate p.name) t1 with hst1def
      set st2 := applyUpdate st1
        (itemUpdate added (failed ++ [p]) (Option.map Product.name r.head?))
        t2 with hst2def
      have hst1A : st1.added_products = added := by
        simp [hst1def, applyUpdate, runningUpdate, hA]
      have hst1F : st1.failed_products = failed := by
        simp [hst1def, applyUpdate, runningUpdate, hF]
      have hst2A : st2.added_products = added := by
        simp [hst2def, applyUpdate, itemUpdate, hst1A]
      have hst2F : st2.failed_products = failed ++ [p] := by
        simp [hst2def, applyUpdate, itemUpdate]
      have hd2 : added.Disjoint (failed ++ [p]) := by
        rw [List.disjoint_append_right]
        exact ⟨hd, List.disjoint_singleton.mpr hpA⟩
      have hsubF2 : ∀ q ∈ failed ++ [p], q ∈ P0 := by
        intro q hq
        rcases List.mem_append.mp hq with h | h
        · exact hsubF q h
        · rw [List.mem_singleton.mp h]; exact hpP0
      have hrest2 : ∀ q ∈ r, q ∈ P0 := fun q hq =>
        hrest q (List.mem_cons_of_mem p hq)
      have hfr2 : ∀ q ∈ r, q ∉ added ∧ q ∉ failed ++ [p] := by
        intro q hq
        refine ⟨(hfr q (List.mem_cons_of_mem p hq)).1, ?_⟩
        intro hmem
        rcases List.mem_append.mp hmem with h | h
        · exact (hfr q (List.mem_cons_of_mem p hq)).2 h
        · exact hpr (List.mem_singleton.mp h ▸ hq)
      obtain ⟨hmem, hch⟩ := ih (fun n => taskOk (n + 1)) added
        (failed ++ [p]) st2 tus' cart tf htr' hst2A hst2F hd2 hsubA hsubF2
        hrest2 hfr2 hndr
      obtain ⟨L, hL⟩ := stateScan_shape st2 (tus' ++
        [(completedUpdate
            (loopTrace (fun n => taskOk (n + 1)) r added (failed ++ [p])).2.1
            (loopTrace (fun n => taskOk (n + 1)) r added (failed ++ [p])).2.2
            cart, tf)])
      have hok : snapOk P0 st := snapOk_of_arrays hA hF hd hsubA hsubF
      have hok1 : snapOk P0 st1 := snapOk_of_arrays hst1A hst1F hd hsubA hsubF
      constructor
      · intro x hx
        simp only [List.cons_append, stateScan, List.mem_cons] at hx
        rcases hx with h | h | h
        · rw [h]; exact hok
        · rw [h]; exact hok1
        · exact hmem x h
      · show List.Chain' stateExtends
          (st :: st1 :: stateScan st2 (tus' ++
            [(completedUpdate
                (loopTrace (fun n => taskOk (n + 1)) r added
                  (failed ++ [p])).2.1
                (loopTrace (fun n => taskOk (n + 1)) r added
                  (failed ++ [p])).2.2 cart, tf)]))
        rw [hL]
        rw [hL] at hch
        refine List.chain'_cons.mpr ⟨?_, List.chain'_cons.mpr ⟨?_, hch⟩⟩
        · exact ⟨⟨[], by rw [hst1A, hA, List.append_nil]⟩,
            ⟨[], by rw [hst1F, hF, List.append_nil]⟩⟩
        · exact ⟨⟨[], by rw [hst2A, hst1A, List.append_nil]⟩,
            ⟨[p], by rw [hst2F, hst1F]⟩⟩

/-- C5 counterexample: with the duplicate input [Milk, Milk] where the first
attempt succeeds and the second fails, the final snapshot holds Milk in both
addedProducts and failedProducts, so the two arrays are not disjoint. -/
theorem c5_counterexample :
    List.map Prod.fst
        [(runningUpdate "Milk", 1),
         (itemUpdate [⟨"Milk", "1L"⟩] [] (some "Milk"), 2),
         (runningUpdate "Milk", 3),
         (itemUpdate [⟨"Milk", "1L"⟩] [⟨"Milk", "1L"⟩] none, 4),
         (completedUpdate [⟨"Milk", "1L"⟩] [⟨"Milk", "1L"⟩] none, 5)]
      = fillShoppingCartTrace
          ⟨Except.ok (), Except.ok (), fun n => n == 0, none⟩
          [⟨"Milk", "1L"⟩, ⟨"Milk", "1L"⟩] ∧
    ∃ st, storeGet (runUpdates
        (fillCartHandler emptyStore [⟨"Milk", "1L"⟩, ⟨"Milk", "1L"⟩]
          "job-d" 0).1 "job-d"
        [(runningUpdate "Milk", 1),
         (itemUpdate [⟨"Milk", "1L"⟩] [] (some "Milk"), 2),
         (runningUpdate "Milk", 3),
         (itemUpdate [⟨"Milk", "1L"⟩] [⟨"Milk", "1L"⟩] none, 4),
         (completedUpdate [⟨"Milk", "1L"⟩] [⟨"Milk", "1L"⟩] none, 5)])
        "job-d" = some st ∧
      st.added_products = [⟨"Milk", "1L"⟩] ∧
      st.failed_products = [⟨"Milk", "1L"⟩] ∧
      ¬ st.added_products.Disjoint st.failed_products := by
  refine ⟨rfl, _, rfl, rfl, rfl, fun h => ?_⟩
  exact @h ⟨"Milk", "1L"⟩ (by decide) (by decide)

/-- C5 amended: provided the input product list contains no duplicate
name+quantity pair, every observed snapshot of a run has addedProducts and
failedProducts disjoint with every element drawn from the input list, and
across successive snapshots both arrays grow append-only, so neither ever
loses an element. -/
theorem c5_amended_invariants (s : Store) (jobId : String) (now : Nat)
    (env : AutomationEnv) (products : List Product)
    (tus : List (ProgressUpdate × Nat))
    (hnodup : products.Nodup)
    (htr : tus.map Prod.fst = fillShoppingCartTrace env products) :
    ∃ states : List FillCartProgressState,
      (storeScan (fillCartHandler s products jobId now).1 jobId tus).map
          (fun q => storeGet q jobId)
        = states.map some ∧
      (∀ x ∈ states, snapOk products x) ∧
      List.Chain' stateExtends states := by
  have hget0 : storeGet (fillCartHandler s products jobId now).1 jobId
      = some (initialJobState now) := storeGet_storeSet_self _ _ _
  refine ⟨stateScan (initialJobState now) tus,
    storeScan_map_get hget0 tus, ?_⟩
  have hok0 : snapOk products (initialJobState now) :=
    @snapOk_of_arrays products [] [] (initialJobState now) rfl rfl
      (by simp) (by simp) (by simp)
  cases hsess : env.sessionResult with
  | error e =>
    simp only [fillShoppingCartTrace, hsess] at htr
    obtain ⟨t, ht⟩ := map_fst_singleton htr
    subst ht
    have hA1 : (applyUpdate (initialJobState now) (failedUpdate e)
        t).added_products = [] := by
      simp [applyUpdate, failedUpdate, initialJobState]
    have hF1 : (applyUpdate (initialJobState now) (failedUpdate e)
        t).failed_products = [] := by
      simp [applyUpdate, failedUpdate, initialJobState]
    constructor
    · intro x hx
      simp only [stateScan, List.mem_cons, List.mem_singleton,
        List.not_mem_nil, or_false] at hx
      rcases hx with h | h
      · rw [h]; exact hok0
      · rw [h]; exact snapOk_of_arrays hA1 hF1 (by simp) (by simp) (by simp)
    · refine List.chain'_cons.mpr ⟨?_, List.chain'_singleton _⟩
      exact ⟨⟨[], by rw [hA1]; rfl⟩, ⟨[], by rw [hF1]; rfl⟩⟩
  | ok u =>
    cases hsetup : env.setupResult with
    | error e =>
      simp only [fillShoppingCartTrace, hsess, hsetup] at htr
      obtain ⟨t, ht⟩ := map_fst_singleton htr
      subst ht
      have hA1 : (applyUpdate (initialJobState now) (failedUpdate e)
          t).added_products = [] := by
        simp [applyUpdate, failedUpdate, initialJobState]
      have hF1 : (applyUpdate (initialJobState now) (failedUpdate e)
          t).failed_products = [] := by
        simp [applyUpdate, failedUpdate, initialJobState]
      constructor
      · intro x hx
        simp only [stateScan, List.mem_cons, List.mem_singleton,
          List.not_mem_nil, or_false] at hx
        rcases hx with h | h
        · rw [h]; exact hok0
        · rw [h]; exact snapOk_of_arrays hA1 hF1 (by simp) (by simp) (by simp)
      · refine List.chain'_cons.mpr ⟨?_, List.chain'_singleton _⟩
        exact ⟨⟨[], by rw [hA1]; rfl⟩, ⟨[], by rw [hF1]; rfl⟩⟩
    | ok u2 =>
      simp only [fillShoppingCartTrace, hsess, hsetup] at htr
      obtain ⟨tus1, t, ht, hm⟩ := map_fst_append_singleton htr
      subst ht
      obtain ⟨hmem, hch⟩ := loop_scan_snapOk products products
        env.productTaskOk [] [] (initialJobState now) tus1 env.cartNavUrl t
        hm rfl rfl (by simp) (by simp) (by simp) (fun q hq => hq)
        (by simp) hnodup
      exact ⟨hmem, hch⟩

/-- Witness for C5 (amended) at a concrete single-product run. -/
theorem c5_amended_invariants_witness :
    ∃ states : List FillCartProgressState,
      (storeScan (fillCartHandler emptyStore [⟨"Bread", "1"⟩] "job-e" 0).1
          "job-e"
          [(runningUpdate "Bread", 1),
           (itemUpdate [⟨"Bread", "1"⟩] [] none, 2),
           (completedUpdate [⟨"Bread", "1"⟩] [] none, 3)]).map
          (fun q => storeGet q "job-e")
        = states.map some ∧
      (∀ x ∈ states, snapOk [⟨"Bread", "1"⟩] x) ∧
      List.Chain' stateExtends states :=
  c5_amended_invariants emptyStore "job-e" 0
    ⟨Except.ok (), Except.ok (), fun _ => true, none⟩ [⟨"Bread", "1"⟩]
    [(runningUpdate "Bread", 1),
     (itemUpdate [⟨"Bread", "1"⟩] [] none, 2),
     (completedUpdate [⟨"Bread", "1"⟩] [] none, 3)] (by decide) rfl

/-- Witness for C6 at a concrete single-product run. -/
theorem c6_status_monotone_witness :
    ∃ states : List FillCartProgressState,
      (storeScan (fillCartHandler emptyStore [⟨"Eggs", "6"⟩] "job-f" 0).1
          "job-f"
          [(runningUpdate "Eggs", 1),
           (itemUpdate [⟨"Eggs", "6"⟩] [] none, 2),
           (completedUpdate [⟨"Eggs", "6"⟩] [] none, 3)]).map
          (fun q => storeGet q "job-f")
        = states.map some ∧
      List.Chain' (fun a b => allowedStep a.status b.status) states ∧
      (∀ x ∈ states.tail, x.status ≠ JobStatus.started) ∧
      (∀ x ∈ states.dropLast,
        x.status ≠ JobStatus.completed ∧ x.status ≠ JobStatus.failed) :=
  c6_status_monotone emptyStore "job-f" 0
    ⟨Except.ok (), Except.ok (), fun _ => true, none⟩ [⟨"Eggs", "6"⟩]
    [(runningUpdate "Eggs", 1),
     (itemUpdate [⟨"Eggs", "6"⟩] [] none, 2),
     (completedUpdate [⟨"Eggs", "6"⟩] [] none, 3)] rfl
